import Mathlib

/-!
Verification of the job-board application's data-model and business rules.

The definitions below are a shallow embedding of the Node/Express route
handlers and middleware of the repository:

* the applications router (POST /api/applications, PUT /api/applications/:id,
  DELETE /api/applications/:id, PUT /api/applications/:id/status,
  GET /api/applications/stats/overview);
* the jobs router (GET /api/jobs);
* the resumes router (POST /api/resumes and PUT /api/resumes/:id skill
  handling);
* the validation middleware (validateRegistration, validateJob,
  validateApplication) and the authorize role gate;
* the AI routes (analyze-resume, match-jobs, skill-gap-analysis,
  improve-resume);
* the Sequelize model associations and their delete-cascade behaviour.

Database tables are modelled as Lean lists of row structures, a request is a
function argument, and each handler is a pure function from the database
state and the request to an HTTP-level reply together with the new database
state.  `find?`, `filter` and `map` over the row lists play the role of the
SQL queries issued through the ORM.
-/

namespace JobBoard

/-- An HTTP-level reply: status code plus the error or success message the
handler puts in the JSON envelope. -/
structure Resp where
  status : Nat
  body : String
deriving DecidableEq, Repr

/-- A row of the `users` table; only fields the modelled handlers read. -/
structure UserRow where
  id : Nat
  role : String
deriving DecidableEq, Repr

/-- A row of the `jobs` table; only fields the applications router reads.
Dates are modelled as natural-number timestamps. -/
structure JobRow where
  id : Nat
  employer_id : Nat
  is_active : Bool
  application_deadline : Option Nat
deriving DecidableEq, Repr

/-- A row of the `resumes` table as the applications router sees it. -/
structure ResumeRow where
  id : Nat
  user_id : Nat
deriving DecidableEq, Repr

/-- A row of the `applications` table. -/
structure ApplicationRow where
  id : Nat
  job_id : Nat
  applicant_id : Nat
  resume_id : Nat
  cover_letter : Option String
  status : String
  notes : Option String
deriving DecidableEq, Repr

/-- The slice of the relational store the applications router touches. -/
structure AppDB where
  jobs : List JobRow
  resumes : List ResumeRow
  applications : List ApplicationRow
  nextApplicationId : Nat
deriving DecidableEq, Repr

/-- The status enumeration guard of PUT /api/applications/:id/status. -/
def applicationStatuses : List String :=
  ["pending", "reviewed", "shortlisted", "rejected", "hired"]

/-- validateApplication middleware (middleware/validation.js): `job_id` and
`resume_id` must be positive integers and a supplied cover letter is at most
2000 characters; the first violated rule is reported with a 400. -/
def validateApplication (job_id resume_id : Nat) (cover_letter : Option String) :
    Option Resp :=
  if job_id = 0 then some ⟨400, "Job ID must be a positive number"⟩
  else if resume_id = 0 then some ⟨400, "Resume ID must be a positive number"⟩
  else
    match cover_letter with
    | some c =>
        if 2000 < c.length then
          some ⟨400, "Cover letter cannot exceed 2000 characters"⟩
        else none
    | none => none

/-- Is there a job row with the given id owned by the given employer?  This
is the `include` join used by PUT /api/applications/:id/status. -/
def jobOwnedBy (db : AppDB) (job_id uid : Nat) : Bool :=
  db.jobs.any fun j => j.id == job_id && j.employer_id == uid

/-- POST /api/applications.  Follows the handler's order of checks: the
authorize gate admits only role applicant, the body is validated, the job
must exist and be active, the resume must belong to the caller, a prior
application for the same (job, applicant) pair is a 400 conflict, a passed
deadline is a 400, and otherwise a new application with status pending is
inserted. -/
def createApplication (db : AppDB) (now : Nat) (user : UserRow)
    (job_id resume_id : Nat) (cover_letter : Option String) : Resp × AppDB :=
  if user.role != "applicant" then
    (⟨403, "Access denied. Insufficient permissions."⟩, db)
  else
    match validateApplication job_id resume_id cover_letter with
    | some r => (r, db)
    | none =>
      match db.jobs.find? fun j => j.id == job_id && j.is_active with
      | none => (⟨404, "Job not found or no longer active"⟩, db)
      | some job =>
        match db.resumes.find? fun r => r.id == resume_id && r.user_id == user.id with
        | none => (⟨404, "Resume not found"⟩, db)
        | some _ =>
          match db.applications.find? fun a =>
              a.job_id == job_id && a.applicant_id == user.id with
          | some _ => (⟨400, "You have already applied to this job"⟩, db)
          | none =>
            let deadlinePassed :=
              match job.application_deadline with
              | some d => decide (d < now)
              | none => false
            if deadlinePassed then
              (⟨400, "Application deadline has passed"⟩, db)
            else
              let app : ApplicationRow :=
                ⟨db.nextApplicationId, job_id, user.id, resume_id,
                  cover_letter, "pending", none⟩
              (⟨201, "Application submitted successfully"⟩,
                { db with
                    applications := db.applications ++ [app],
                    nextApplicationId := db.nextApplicationId + 1 })

/-- PUT /api/applications/:id.  The applicant-facing update: finds the
caller's own application, rejects with 400 when the status is no longer
pending, and otherwise updates only the cover letter (an absent body field
leaves the stored value untouched, as Sequelize skips undefined values). -/
def updateApplication (db : AppDB) (user : UserRow) (app_id : Nat)
    (cover_letter : Option String) : Resp × AppDB :=
  match db.applications.find? fun a => a.id == app_id && a.applicant_id == user.id with
  | none => (⟨404, "Application not found"⟩, db)
  | some app =>
    if app.status != "pending" then
      (⟨400, "Cannot update application after it has been reviewed"⟩, db)
    else
      (⟨200, "Application updated successfully"⟩,
        { db with
            applications := db.applications.map fun a =>
              if a.id == app_id && a.applicant_id == user.id then
                { a with cover_letter := cover_letter.or a.cover_letter }
              else a })

/-- DELETE /api/applications/:id.  Withdraws the caller's own application,
but only while its status is still pending; otherwise 400 and no change. -/
def deleteApplication (db : AppDB) (user : UserRow) (app_id : Nat) : Resp × AppDB :=
  match db.applications.find? fun a => a.id == app_id && a.applicant_id == user.id with
  | none => (⟨404, "Application not found"⟩, db)
  | some app =>
    if app.status != "pending" then
      (⟨400, "Cannot withdraw application after it has been reviewed"⟩, db)
    else
      (⟨200, "Application withdrawn successfully"⟩,
        { db with
            applications := db.applications.filter fun a =>
              !(a.id == app_id && a.applicant_id == user.id) })

/-- PUT /api/applications/:id/status.  The authorize gate admits employers
and admins, the requested status must be in the enumeration, and the
application is looked up joined against a job owned by the caller; the
update sets the status and attaches the note (a missing or empty note keeps
the stored one, mirroring `notes || application.notes`). -/
def updateApplicationStatus (db : AppDB) (user : UserRow) (app_id : Nat)
    (status : String) (notes : Option String) : Resp × AppDB :=
  if !(user.role == "employer" || user.role == "admin") then
    (⟨403, "Access denied. Insufficient permissions."⟩, db)
  else if !(applicationStatuses.contains status) then
    (⟨400, "Invalid status"⟩, db)
  else
    match db.applications.find? fun a =>
        a.id == app_id && jobOwnedBy db a.job_id user.id with
    | none => (⟨404, "Application not found or access denied"⟩, db)
    | some _ =>
      (⟨200, "Application status updated successfully"⟩,
        { db with
            applications := db.applications.map fun a =>
              if a.id == app_id && jobOwnedBy db a.job_id user.id then
                { a with
                    status := status,
                    notes :=
                      match notes with
                      | some n => if n = "" then a.notes else some n
                      | none => a.notes }
              else a })

end JobBoard

namespace JobBoard

/-- C1: for a job that is active with an unset or future deadline and a
resume owned by the applicant, the first create-application request for the
pair (job_id, applicant_id) succeeds (201) and appends exactly one
application whose status is pending; an immediately repeated request for the
same pair is rejected with the 400 conflict error and leaves the database
unchanged, so no second application row is created. -/
theorem createApplication_first_succeeds_second_conflicts
    (db : AppDB) (now : Nat) (user : UserRow) (job_id resume_id : Nat)
    (cl cl2 : Option String) (job : JobRow)
    (hrole : user.role = "applicant")
    (hval : validateApplication job_id resume_id cl = none)
    (hval2 : validateApplication job_id resume_id cl2 = none)
    (hjob : (db.jobs.find? fun j => j.id == job_id && j.is_active) = some job)
    (hdl : ∀ d, job.application_deadline = some d → ¬ d < now)
    (hres : (db.resumes.find? fun r =>
        r.id == resume_id && r.user_id == user.id).isSome)
    (hnodup : (db.applications.find? fun a =>
        a.job_id == job_id && a.applicant_id == user.id) = none) :
    (createApplication db now user job_id resume_id cl).1.status = 201 ∧
    (createApplication db now user job_id resume_id cl).2.applications =
      db.applications ++
        [⟨db.nextApplicationId, job_id, user.id, resume_id, cl, "pending", none⟩] ∧
    (createApplication (createApplication db now user job_id resume_id cl).2
        now user job_id resume_id cl2).1 =
      ⟨400, "You have already applied to this job"⟩ ∧
    (createApplication (createApplication db now user job_id resume_id cl).2
        now user job_id resume_id cl2).2 =
      (createApplication db now user job_id resume_id cl).2 := by
  obtain ⟨res, hres⟩ := Option.isSome_iff_exists.1 hres
  have hdl' :
      (match job.application_deadline with
        | some d => decide (d < now)
        | none => false) = false := by
    cases hdead : job.application_deadline with
    | none => rfl
    | some d => simpa using hdl d hdead
  have h1 :
      createApplication db now user job_id resume_id cl =
        (⟨201, "Application submitted successfully"⟩,
          { db with
              applications := db.applications ++
                [⟨db.nextApplicationId, job_id, user.id, resume_id, cl,
                  "pending", none⟩],
              nextApplicationId := db.nextApplicationId + 1 }) := by
    unfold createApplication
    rw [hrole]
    simp only [hval, hjob, hres, hnodup, hdl']
    rfl
  refine ⟨by rw [h1], by rw [h1], ?_, ?_⟩ <;>
  · rw [h1]
    unfold createApplication
    rw [hrole]
    simp only [hval2, hjob, hres]
    rw [List.find?_append, hnodup]
    simp

/-- Projection of an application row onto every field except the cover
letter; used to state that the applicant-facing update can change nothing
else. -/
def nonCoverView (a : ApplicationRow) :
    Nat × Nat × Nat × Nat × String × Option String :=
  (a.id, a.job_id, a.applicant_id, a.resume_id, a.status, a.notes)

/-- C6: once an application's status has left pending, the applicant's
cover-letter update and withdraw requests are both rejected with 400 and
leave the database unchanged; while the status is pending the update mutates
only the cover letter (all other fields of every application, and the job
and resume tables, are untouched); and the status-update endpoint itself is
closed to the applicant role with a 403, whatever status is requested. -/
theorem applicant_cannot_touch_reviewed_application
    (db : AppDB) (user : UserRow) (app_id : Nat) (app : ApplicationRow)
    (cl : Option String) (st : String) (nts : Option String)
    (hfind : (db.applications.find? fun a =>
        a.id == app_id && a.applicant_id == user.id) = some app) :
    (app.status ≠ "pending" →
      updateApplication db user app_id cl =
        (⟨400, "Cannot update application after it has been reviewed"⟩, db) ∧
      deleteApplication db user app_id =
        (⟨400, "Cannot withdraw application after it has been reviewed"⟩, db)) ∧
    (app.status = "pending" →
      (updateApplication db user app_id cl).1.status = 200 ∧
      (updateApplication db user app_id cl).2.applications.map nonCoverView =
        db.applications.map nonCoverView ∧
      (updateApplication db user app_id cl).2.jobs = db.jobs ∧
      (updateApplication db user app_id cl).2.resumes = db.resumes) ∧
    (user.role = "applicant" →
      updateApplicationStatus db user app_id st nts =
        (⟨403, "Access denied. Insufficient permissions."⟩, db)) := by
  refine ⟨?_, ?_, ?_⟩
  · intro hst
    have hb : (app.status != "pending") = true := by
      simpa using hst
    constructor
    · unfold updateApplication
      rw [hfind]
      simp [hb]
    · unfold deleteApplication
      rw [hfind]
      simp [hb]
  · intro hst
    have hb : (app.status != "pending") = false := by
      simp [hst]
    have hu :
        updateApplication db user app_id cl =
          (⟨200, "Application updated successfully"⟩,
            { db with
                applications := db.applications.map fun a =>
                  if a.id == app_id && a.applicant_id == user.id then
                    { a with cover_letter := cl.or a.cover_letter }
                  else a }) := by
      unfold updateApplication
      rw [hfind]
      simp [hb]
    refine ⟨by rw [hu], ?_, by rw [hu], by rw [hu]⟩
    rw [hu]
    simp only [List.map_map]
    apply List.map_congr_left
    intro a _
    simp only [Function.comp_apply]
    split <;> rfl
  · intro hrole
    unfold updateApplicationStatus
    rw [hrole]
    rfl

/-- Witness for C6: application 5, already reviewed, cannot be updated or
withdrawn by its applicant (user 3). -/
theorem applicant_cannot_touch_reviewed_application_witness :
    updateApplication
        ⟨[⟨1, 2, true, none⟩], [⟨7, 3⟩],
          [⟨5, 1, 3, 7, none, "reviewed", none⟩], 6⟩
        ⟨3, "applicant"⟩ 5 (some "new letter") =
      (⟨400, "Cannot update application after it has been reviewed"⟩,
        ⟨[⟨1, 2, true, none⟩], [⟨7, 3⟩],
          [⟨5, 1, 3, 7, none, "reviewed", none⟩], 6⟩) ∧
    deleteApplication
        ⟨[⟨1, 2, true, none⟩], [⟨7, 3⟩],
          [⟨5, 1, 3, 7, none, "reviewed", none⟩], 6⟩
        ⟨3, "applicant"⟩ 5 =
      (⟨400, "Cannot withdraw application after it has been reviewed"⟩,
        ⟨[⟨1, 2, true, none⟩], [⟨7, 3⟩],
          [⟨5, 1, 3, 7, none, "reviewed", none⟩], 6⟩) := by
  have h := applicant_cannot_touch_reviewed_application
    ⟨[⟨1, 2, true, none⟩], [⟨7, 3⟩], [⟨5, 1, 3, 7, none, "reviewed", none⟩], 6⟩
    ⟨3, "applicant"⟩ 5 ⟨5, 1, 3, 7, none, "reviewed", none⟩
    (some "new letter") "hired" none rfl
  exact h.1 (by decide)

/-- C4 counterexample: the claim says a status-update request from a user
who is not the owning employer fails with an authorization error (the spec
maps authorization failures to HTTP 403) regardless of the requested status
value.  On the code, employer 2 — who does not own the job of application
10 — gets a 400 "Invalid status" for an out-of-enumeration status and a 404
for a valid one; neither reply is a 403. -/
theorem statusUpdate_nonOwner_not_always_403 :
    (updateApplicationStatus
        ⟨[⟨1, 1, true, none⟩], [⟨7, 5⟩],
          [⟨10, 1, 5, 7, none, "pending", none⟩], 11⟩
        ⟨2, "employer"⟩ 10 "archived" none).1 = ⟨400, "Invalid status"⟩ ∧
    (updateApplicationStatus
        ⟨[⟨1, 1, true, none⟩], [⟨7, 5⟩],
          [⟨10, 1, 5, 7, none, "pending", none⟩], 11⟩
        ⟨2, "employer"⟩ 10 "reviewed" none).1 =
      ⟨404, "Application not found or access denied"⟩ ∧
    (400 : Nat) ≠ 403 ∧ (404 : Nat) ≠ 403 := by
  decide

/-- C4 as amended: a status-update request from a user who is not the owning
employer of the application's job always fails and never mutates any
application — with 403 when the caller's role is neither employer nor admin,
with 400 when the requested status is outside the enumeration, and with 404
(not-found/access-denied) otherwise. -/
theorem statusUpdate_nonOwner_always_fails
    (db : AppDB) (user : UserRow) (app_id : Nat) (status : String)
    (notes : Option String)
    (hown : ∀ a ∈ db.applications, a.id = app_id →
      jobOwnedBy db a.job_id user.id = false) :
    (updateApplicationStatus db user app_id status notes).2 = db ∧
    (updateApplicationStatus db user app_id status notes).1.status ≠ 200 ∧
    (user.role ≠ "employer" → user.role ≠ "admin" →
      (updateApplicationStatus db user app_id status notes).1.status = 403) ∧
    (status ∉ applicationStatuses →
      (user.role = "employer" ∨ user.role = "admin") →
      (updateApplicationStatus db user app_id status notes).1.status = 400) ∧
    (status ∈ applicationStatuses →
      (user.role = "employer" ∨ user.role = "admin") →
      (updateApplicationStatus db user app_id status notes).1.status = 404) := by
  have hnone : (db.applications.find? fun a =>
      a.id == app_id && jobOwnedBy db a.job_id user.id) = none := by
    apply List.find?_eq_none.2
    intro a ha
    simp only [Bool.and_eq_true, beq_iff_eq, not_and]
    intro hid
    simp [hown a ha hid]
  have hres : updateApplicationStatus db user app_id status notes =
      if !(user.role == "employer" || user.role == "admin") then
        (⟨403, "Access denied. Insufficient permissions."⟩, db)
      else if !(applicationStatuses.contains status) then
        (⟨400, "Invalid status"⟩, db)
      else (⟨404, "Application not found or access denied"⟩, db) := by
    unfold updateApplicationStatus
    rw [hnone]
  by_cases h1 : user.role = "employer" ∨ user.role = "admin"
  · have hb1 : (user.role == "employer" || user.role == "admin") = true := by
      rcases h1 with h | h <;> simp [h]
    by_cases h2 : status ∈ applicationStatuses
    · have hv : updateApplicationStatus db user app_id status notes =
          (⟨404, "Application not found or access denied"⟩, db) := by
        rw [hres]; simp [hb1, h2]
      rw [hv]
      refine ⟨rfl, by simp, ?_, ?_, fun _ _ => rfl⟩
      · intro hne hna
        rcases h1 with h | h
        · exact absurd h hne
        · exact absurd h hna
      · intro hmem _
        exact absurd h2 hmem
    · have hv : updateApplicationStatus db user app_id status notes =
          (⟨400, "Invalid status"⟩, db) := by
        rw [hres]; simp [hb1, h2]
      rw [hv]
      refine ⟨rfl, by simp, ?_, fun _ _ => rfl, ?_⟩
      · intro hne hna
        rcases h1 with h | h
        · exact absurd h hne
        · exact absurd h hna
      · intro hmem _
        exact absurd hmem h2
  · have hb1 : (user.role == "employer" || user.role == "admin") = false := by
      simp only [Bool.or_eq_false_iff, beq_eq_false_iff_ne]
      exact ⟨fun h => h1 (Or.inl h), fun h => h1 (Or.inr h)⟩
    have hv : updateApplicationStatus db user app_id status notes =
        (⟨403, "Access denied. Insufficient permissions."⟩, db) := by
      rw [hres]; simp [hb1]
    rw [hv]
    exact ⟨rfl, by simp, fun _ _ => rfl,
      fun _ hr => absurd hr h1, fun _ hr => absurd hr h1⟩

/-- Witness for C4's amended theorem: employer 2 does not own job 1, so the
status update of application 10 to "reviewed" is a 404 and the database is
unchanged. -/
theorem statusUpdate_nonOwner_always_fails_witness :
    (updateApplicationStatus
        ⟨[⟨1, 1, true, none⟩], [⟨7, 5⟩],
          [⟨10, 1, 5, 7, none, "pending", none⟩], 11⟩
        ⟨2, "employer"⟩ 10 "reviewed" none).2 =
      ⟨[⟨1, 1, true, none⟩], [⟨7, 5⟩],
        [⟨10, 1, 5, 7, none, "pending", none⟩], 11⟩ ∧
    (updateApplicationStatus
        ⟨[⟨1, 1, true, none⟩], [⟨7, 5⟩],
          [⟨10, 1, 5, 7, none, "pending", none⟩], 11⟩
        ⟨2, "employer"⟩ 10 "reviewed" none).1.status = 404 := by
  have h := statusUpdate_nonOwner_always_fails
    ⟨[⟨1, 1, true, none⟩], [⟨7, 5⟩], [⟨10, 1, 5, 7, none, "pending", none⟩], 11⟩
    ⟨2, "employer"⟩ 10 "reviewed" none (by decide)
  exact ⟨h.1, h.2.2.2.2 (by decide) (Or.inl rfl)⟩

/-- Witness for C1 at a concrete database: job 1 is active with no deadline
and owned by employer 2, resume 7 belongs to applicant 3, and there is no
prior application. -/
theorem createApplication_first_succeeds_second_conflicts_witness :
    ((createApplication
        ⟨[⟨1, 2, true, none⟩], [⟨7, 3⟩], [], 10⟩ 0 ⟨3, "applicant"⟩ 1 7 none).1.status
      = 201) ∧
    ((createApplication
        (createApplication
          ⟨[⟨1, 2, true, none⟩], [⟨7, 3⟩], [], 10⟩ 0 ⟨3, "applicant"⟩ 1 7 none).2
        0 ⟨3, "applicant"⟩ 1 7 none).1 =
      ⟨400, "You have already applied to this job"⟩) := by
  have h := createApplication_first_succeeds_second_conflicts
    ⟨[⟨1, 2, true, none⟩], [⟨7, 3⟩], [], 10⟩ 0 ⟨3, "applicant"⟩ 1 7 none none
    ⟨1, 2, true, none⟩ rfl rfl rfl (by decide)
    (by intro d hd; cases hd) (by decide) rfl
  exact ⟨h.1, h.2.2.1⟩

end JobBoard

namespace JobBoard

/-- The per-status counters of GET /api/applications/stats/overview. -/
structure StatsData where
  total : Nat
  pending : Nat
  reviewed : Nat
  shortlisted : Nat
  rejected : Nat
  hired : Nat
deriving DecidableEq, Repr

/-- The in-memory tally the stats handler computes over the loaded rows. -/
def tally (apps : List ApplicationRow) : StatsData :=
  ⟨apps.length,
    (apps.filter fun a => a.status == "pending").length,
    (apps.filter fun a => a.status == "reviewed").length,
    (apps.filter fun a => a.status == "shortlisted").length,
    (apps.filter fun a => a.status == "rejected").length,
    (apps.filter fun a => a.status == "hired").length⟩

/-- GET /api/applications/stats/overview: an applicant gets the tally of
their own applications, an employer the tally of applications to their jobs,
and any other role gets no stats object. -/
def statsOverview (db : AppDB) (user : UserRow) : Option StatsData :=
  if user.role == "applicant" then
    some (tally (db.applications.filter fun a => a.applicant_id == user.id))
  else if user.role == "employer" then
    some (tally (db.applications.filter fun a => jobOwnedBy db a.job_id user.id))
  else none

/-- The application-mutating requests of the applications router. -/
inductive AppOp where
  | create (now : Nat) (user : UserRow) (job_id resume_id : Nat)
      (cover_letter : Option String)
  | updateCover (user : UserRow) (app_id : Nat) (cover_letter : Option String)
  | withdraw (user : UserRow) (app_id : Nat)
  | setStatus (user : UserRow) (app_id : Nat) (status : String)
      (notes : Option String)

/-- The database-state effect of one request. -/
def step (db : AppDB) (op : AppOp) : AppDB :=
  match op with
  | .create now user job_id resume_id cl =>
      (createApplication db now user job_id resume_id cl).2
  | .updateCover user app_id cl => (updateApplication db user app_id cl).2
  | .withdraw user app_id => (deleteApplication db user app_id).2
  | .setStatus user app_id st n => (updateApplicationStatus db user app_id st n).2

/-- Run a sequence of requests against a database state. -/
def runOps (db : AppDB) (ops : List AppOp) : AppDB :=
  ops.foldl step db

/-- Every stored application carries one of the five enumerated statuses. -/
def statusesValid (db : AppDB) : Prop :=
  ∀ a ∈ db.applications, a.status ∈ applicationStatuses

/-- POST /api/applications either leaves the table unchanged or appends one
application whose status is pending. -/
theorem createApplication_apps_cases (db : AppDB) (now : Nat) (user : UserRow)
    (job_id resume_id : Nat) (cl : Option String) :
    (createApplication db now user job_id resume_id cl).2.applications =
      db.applications ∨
    (createApplication db now user job_id resume_id cl).2.applications =
      db.applications ++
        [⟨db.nextApplicationId, job_id, user.id, resume_id, cl, "pending", none⟩] := by
  unfold createApplication
  repeat' split
  all_goals dsimp only
  all_goals repeat' split
  all_goals first | exact Or.inl rfl | exact Or.inr rfl

/-- The applicant-facing update never changes any status field. -/
theorem updateApplication_status_stable (db : AppDB) (user : UserRow)
    (app_id : Nat) (cl : Option String) :
    ∀ x ∈ (updateApplication db user app_id cl).2.applications,
      ∃ a ∈ db.applications, x.status = a.status := by
  intro x hx
  unfold updateApplication at hx
  split at hx
  · exact ⟨x, hx, rfl⟩
  · split at hx
    · exact ⟨x, hx, rfl⟩
    · simp only at hx
      obtain ⟨a, ha, hax⟩ := List.mem_map.1 hx
      refine ⟨a, ha, ?_⟩
      subst hax
      split <;> rfl

/-- Withdrawal only removes rows. -/
theorem deleteApplication_apps_subset (db : AppDB) (user : UserRow)
    (app_id : Nat) :
    ∀ x ∈ (deleteApplication db user app_id).2.applications,
      x ∈ db.applications := by
  intro x hx
  unfold deleteApplication at hx
  split at hx
  · exact hx
  · split at hx
    · exact hx
    · exact List.mem_of_mem_filter hx

/-- The employer status update only writes statuses from the enumeration. -/
theorem updateApplicationStatus_status_valid (db : AppDB) (user : UserRow)
    (app_id : Nat) (st : String) (n : Option String) :
    ∀ x ∈ (updateApplicationStatus db user app_id st n).2.applications,
      x.status ∈ applicationStatuses ∨
        ∃ a ∈ db.applications, x.status = a.status := by
  intro x hx
  unfold updateApplicationStatus at hx
  split at hx
  · exact Or.inr ⟨x, hx, rfl⟩
  · split at hx
    · exact Or.inr ⟨x, hx, rfl⟩
    · rename_i hcond
      split at hx
      · exact Or.inr ⟨x, hx, rfl⟩
      · simp only at hx
        obtain ⟨a, ha, hax⟩ := List.mem_map.1 hx
        subst hax
        split
        · left
          simpa using hcond
        · exact Or.inr ⟨a, ha, rfl⟩

/-- One request preserves the status-enumeration invariant. -/
theorem statusesValid_step (db : AppDB) (op : AppOp)
    (h : statusesValid db) : statusesValid (step db op) := by
  cases op with
  | create now user job_id resume_id cl =>
    intro a ha
    rcases createApplication_apps_cases db now user job_id resume_id cl with
      hc | hc
    · exact h a (by rwa [step, hc] at ha)
    · rw [step, hc] at ha
      rcases List.mem_append.1 ha with hm | hm
      · exact h a hm
      · rcases List.mem_singleton.1 hm with rfl
        simp [applicationStatuses]
  | updateCover user app_id cl =>
    intro a ha
    obtain ⟨b, hb, hba⟩ := updateApplication_status_stable db user app_id cl a ha
    rw [hba]
    exact h b hb
  | withdraw user app_id =>
    intro a ha
    exact h a (deleteApplication_apps_subset db user app_id a ha)
  | setStatus user app_id st n =>
    intro a ha
    rcases updateApplicationStatus_status_valid db user app_id st n a ha with
      hv | ⟨b, hb, hba⟩
    · exact hv
    · rw [hba]
      exact h b hb

/-- A whole request sequence preserves the status-enumeration invariant. -/
theorem statusesValid_runOps (db : AppDB) (ops : List AppOp)
    (h : statusesValid db) : statusesValid (runOps db ops) := by
  induction ops generalizing db with
  | nil => exact h
  | cons op rest ih => exact ih (step db op) (statusesValid_step db op h)

/-- The five per-status counters of a tally sum to its total whenever every
row's status is in the enumeration. -/
theorem tally_counts_sum (apps : List ApplicationRow)
    (h : ∀ a ∈ apps, a.status ∈ applicationStatuses) :
    (tally apps).pending + (tally apps).reviewed + (tally apps).shortlisted +
      (tally apps).rejected + (tally apps).hired = (tally apps).total := by
  induction apps with
  | nil => rfl
  | cons a l ih =>
    have ha := h a (List.mem_cons_self a l)
    have hl : ∀ x ∈ l, x.status ∈ applicationStatuses := fun x hx =>
      h x (List.mem_cons_of_mem _ hx)
    have ih' := ih hl
    simp only [applicationStatuses, List.mem_cons, List.mem_singleton,
      List.not_mem_nil, or_false] at ha
    simp only [tally] at ih' ⊢
    rcases ha with hs | hs | hs | hs | hs <;>
      simp [List.filter_cons, hs] at ih' ⊢ <;> omega

end JobBoard

namespace JobBoard

/-- C10: starting from any database whose applications all carry one of the
five enumerated statuses (in particular the empty database) and running any
sequence of application-router requests, a stats-overview request by an
applicant or an employer returns counters whose sum over pending, reviewed,
shortlisted, rejected and hired equals the returned total — because
applications are created with status pending and only ever updated to a
value of the enumeration by the status-update operation. -/
theorem statsOverview_counts_sum_to_total
    (db : AppDB) (ops : List AppOp) (user : UserRow)
    (hinit : statusesValid db)
    (hrole : user.role = "applicant" ∨ user.role = "employer") :
    ∃ s, statsOverview (runOps db ops) user = some s ∧
      s.pending + s.reviewed + s.shortlisted + s.rejected + s.hired = s.total := by
  have hv := statusesValid_runOps db ops hinit
  rcases hrole with h | h
  · have hs' : statsOverview (runOps db ops) user =
        some (tally ((runOps db ops).applications.filter
          fun a => a.applicant_id == user.id)) := by
      simp [statsOverview, h]
    exact ⟨_, hs',
      tally_counts_sum _ fun a ha => hv a (List.mem_of_mem_filter ha)⟩
  · have hs' : statsOverview (runOps db ops) user =
        some (tally ((runOps db ops).applications.filter
          fun a => jobOwnedBy (runOps db ops) a.job_id user.id)) := by
      simp [statsOverview, h]
    exact ⟨_, hs',
      tally_counts_sum _ fun a ha => hv a (List.mem_of_mem_filter ha)⟩

/-- Witness for C10: from the empty database, an applicant creates an
application to an active job and the employer marks it reviewed; the
applicant's stats counters sum to the total. -/
theorem statsOverview_counts_sum_to_total_witness :
    ∃ s, statsOverview
        (runOps ⟨[⟨1, 2, true, none⟩], [⟨7, 3⟩], [], 1⟩
          [.create 0 ⟨3, "applicant"⟩ 1 7 none,
            .setStatus ⟨2, "employer"⟩ 1 "reviewed" none])
        ⟨3, "applicant"⟩ = some s ∧
      s.pending + s.reviewed + s.shortlisted + s.rejected + s.hired = s.total := by
  exact statsOverview_counts_sum_to_total
    ⟨[⟨1, 2, true, none⟩], [⟨7, 3⟩], [], 1⟩
    [.create 0 ⟨3, "applicant"⟩ 1 7 none,
      .setStatus ⟨2, "employer"⟩ 1 "reviewed" none]
    ⟨3, "applicant"⟩ (by intro a ha; cases ha) (Or.inl rfl)

end JobBoard

namespace JobBoard

/-- A row of the shared `skills` taxonomy table. -/
structure SkillRow where
  id : Nat
  name : String
  category : String
deriving DecidableEq, Repr

/-- A row of the `resume_skills` join table with its per-resume metadata. -/
structure ResumeSkillRow where
  resume_id : Nat
  skill_id : Nat
  proficiency_level : String
  years_experience : Nat
deriving DecidableEq, Repr

/-- One entry of the `skills` array in a resume create/update body. -/
structure SkillInput where
  name : String
  proficiency_level : Option String
  years_experience : Option Nat
  category : Option String
deriving DecidableEq, Repr

/-- The slice of the store the resume router's skill handling touches. -/
structure SkillDB where
  skills : List SkillRow
  resumeSkills : List ResumeSkillRow
  nextSkillId : Nat
deriving DecidableEq, Repr

/-- `Skill.findOrCreate({ where: { name }, defaults: { category } })`: the
skill name is resolved against the shared taxonomy and created with the
supplied (or default General) category only when absent. -/
def findOrCreateSkill (db : SkillDB) (sd : SkillInput) : SkillRow × SkillDB :=
  match db.skills.find? fun s => s.name == sd.name with
  | some s => (s, db)
  | none =>
    let s : SkillRow := ⟨db.nextSkillId, sd.name, sd.category.getD "General"⟩
    (s, { db with skills := db.skills ++ [s], nextSkillId := db.nextSkillId + 1 })

/-- One iteration of the skills loop in POST /api/resumes and
PUT /api/resumes/:id: resolve the name, then insert a ResumeSkill link with
the supplied proficiency (default intermediate) and years (default 0). -/
def createResumeSkillLink (db : SkillDB) (rid : Nat) (sd : SkillInput) : SkillDB :=
  let fc := findOrCreateSkill db sd
  { fc.2 with
      resumeSkills := fc.2.resumeSkills ++
        [⟨rid, fc.1.id, sd.proficiency_level.getD "intermediate",
          sd.years_experience.getD 0⟩] }

/-- The skills loop of POST /api/resumes over the whole supplied array. -/
def addSkills (db : SkillDB) (rid : Nat) (skills : List SkillInput) : SkillDB :=
  skills.foldl (fun d sd => createResumeSkillLink d rid sd) db

/-- PUT /api/resumes/:id skill replacement: destroy every link of the
resume, then run the same loop as on create. -/
def replaceSkills (db : SkillDB) (rid : Nat) (skills : List SkillInput) : SkillDB :=
  addSkills
    { db with resumeSkills := db.resumeSkills.filter fun l => l.resume_id != rid }
    rid skills

/-- Resolve a stored skill id back to its name. -/
def skillNameOf (db : SkillDB) (sid : Nat) : Option String :=
  (db.skills.find? fun s => s.id == sid).map fun s => s.name

/-- The observable skill links of a resume: for each join row, the linked
skill's name with the per-resume proficiency and years metadata. -/
def linksView (db : SkillDB) (rid : Nat) : List (Option String × String × Nat) :=
  (db.resumeSkills.filter fun l => l.resume_id == rid).map fun l =>
    (skillNameOf db l.skill_id, l.proficiency_level, l.years_experience)

/-- What one entry of the request's skills array should come out as. -/
def interpInput (sd : SkillInput) : Option String × String × Nat :=
  (some sd.name, sd.proficiency_level.getD "intermediate",
    sd.years_experience.getD 0)

/-- Well-formedness of the skill store: taxonomy ids are pairwise distinct
and every stored id (in the taxonomy and in the join table) is below the
next fresh id. -/
def SkillDBwf (db : SkillDB) : Prop :=
  (db.skills.map fun s => s.id).Nodup ∧
  (∀ s ∈ db.skills, s.id < db.nextSkillId) ∧
  (∀ l ∈ db.resumeSkills, l.skill_id < db.nextSkillId)

end JobBoard

namespace JobBoard

/-- Appending a skill row with a fresh id does not change how smaller ids
resolve. -/
theorem find?_id_append_fresh (skills : List SkillRow) (k : SkillRow)
    (sid : Nat) (hsid : sid ≠ k.id) :
    ((skills ++ [k]).find? fun s => s.id == sid) =
      skills.find? fun s => s.id == sid := by
  rw [List.find?_append]
  cases h : skills.find? fun s => s.id == sid with
  | some s => rfl
  | none =>
    have hne : (k.id == sid) = false := by
      simp only [beq_eq_false_iff_ne]
      exact fun hcl => hsid hcl.symm
    simp [List.find?, hne]

/-- An element of a list with pairwise-distinct ids is found by its id. -/
theorem find?_id_of_mem (skills : List SkillRow) (s : SkillRow)
    (hnd : (skills.map fun t => t.id).Nodup) (hs : s ∈ skills) :
    (skills.find? fun t => t.id == s.id) = some s := by
  cases hft : skills.find? fun t => t.id == s.id with
  | none =>
    have := List.find?_eq_none.1 hft s hs
    simp at this
  | some t =>
    have htmem := List.mem_of_find?_eq_some hft
    have htid : t.id = s.id := by simpa using List.find?_some hft
    rw [List.inj_on_of_nodup_map hnd htmem hs htid]

/-- One iteration of the skills loop preserves well-formedness and appends
exactly the supplied entry, resolved to its name, to the resume's links. -/
theorem createResumeSkillLink_view (db : SkillDB) (rid : Nat) (sd : SkillInput)
    (h : SkillDBwf db) :
    SkillDBwf (createResumeSkillLink db rid sd) ∧
    linksView (createResumeSkillLink db rid sd) rid =
      linksView db rid ++ [interpInput sd] := by
  obtain ⟨hnd, hsk, hlk⟩ := h
  unfold createResumeSkillLink findOrCreateSkill
  cases hf : db.skills.find? fun s => s.name == sd.name with
  | some s =>
    simp only [hf]
    have hsmem := List.mem_of_find?_eq_some hf
    have hsname : s.name = sd.name := by simpa using List.find?_some hf
    have hid : (db.skills.find? fun t => t.id == s.id) = some s :=
      find?_id_of_mem db.skills s hnd hsmem
    constructor
    · refine ⟨hnd, hsk, ?_⟩
      intro l hl
      rcases List.mem_append.1 hl with hm | hm
      · exact hlk l hm
      · rcases List.mem_singleton.1 hm with rfl
        exact hsk s hsmem
    · unfold linksView
      rw [List.filter_append, List.map_append]
      have hone : (List.filter (fun l => l.resume_id == rid)
          [(⟨rid, s.id, sd.proficiency_level.getD "intermediate",
            sd.years_experience.getD 0⟩ : ResumeSkillRow)]) =
          [⟨rid, s.id, sd.proficiency_level.getD "intermediate",
            sd.years_experience.getD 0⟩] := by
        simp [List.filter]
      rw [hone]
      congr 1
      simp [skillNameOf, hid, interpInput, hsname]
  | none =>
    simp only [hf]
    constructor
    · refine ⟨?_, ?_, ?_⟩
      · simp only [List.map_append]
        rw [List.nodup_append]
        refine ⟨hnd, by simp, ?_⟩
        intro x hx
        simp only [List.mem_map] at hx
        obtain ⟨t, ht, rfl⟩ := hx
        simp only [List.map_cons, List.map_nil, List.mem_singleton]
        exact fun hcl => absurd hcl (Nat.ne_of_lt (hsk t ht))
      · intro t ht
        rcases List.mem_append.1 ht with hm | hm
        · exact Nat.lt_succ_of_lt (hsk t hm)
        · rcases List.mem_singleton.1 hm with rfl
          exact Nat.lt_succ_self _
      · intro l hl
        rcases List.mem_append.1 hl with hm | hm
        · exact Nat.lt_succ_of_lt (hlk l hm)
        · rcases List.mem_singleton.1 hm with rfl
          exact Nat.lt_succ_self _
    · unfold linksView
      rw [List.filter_append, List.map_append]
      have hone : (List.filter (fun l => l.resume_id == rid)
          [(⟨rid, db.nextSkillId, sd.proficiency_level.getD "intermediate",
            sd.years_experience.getD 0⟩ : ResumeSkillRow)]) =
          [⟨rid, db.nextSkillId, sd.proficiency_level.getD "intermediate",
            sd.years_experience.getD 0⟩] := by
        simp [List.filter]
      rw [hone]
      congr 1
      · apply List.map_congr_left
        intro l hl
        have hlmem := List.mem_filter.1 hl
        have hlt : l.skill_id ≠ db.nextSkillId :=
          Nat.ne_of_lt (hlk l hlmem.1)
        simp only [skillNameOf]
        rw [find?_id_append_fresh db.skills _ l.skill_id hlt]
      · have hnone : (db.skills.find? fun t =>
            t.id == db.nextSkillId) = none := by
          apply List.find?_eq_none.2
          intro t ht
          simp [Nat.ne_of_lt (hsk t ht)]
        simp [skillNameOf, List.find?_append, hnone, List.find?, interpInput]

end JobBoard

namespace JobBoard

/-- The whole skills loop appends exactly the supplied list, in order, to
the resume's links, and keeps the store well-formed. -/
theorem addSkills_view (rid : Nat) (s : List SkillInput) :
    ∀ db : SkillDB, SkillDBwf db →
      SkillDBwf (addSkills db rid s) ∧
      linksView (addSkills db rid s) rid =
        linksView db rid ++ s.map interpInput := by
  induction s with
  | nil =>
    intro db h
    exact ⟨h, by simp [addSkills]⟩
  | cons sd rest ih =>
    intro db h
    have hstep := createResumeSkillLink_view db rid sd h
    have hrec := ih (createResumeSkillLink db rid sd) hstep.1
    have hfold : addSkills db rid (sd :: rest) =
        addSkills (createResumeSkillLink db rid sd) rid rest := rfl
    rw [hfold]
    refine ⟨hrec.1, ?_⟩
    rw [hrec.2, hstep.2]
    simp

/-- Destroying all of one resume's links preserves well-formedness and
leaves that resume with no links. -/
theorem destroyLinks_wf (db : SkillDB) (rid : Nat) (h : SkillDBwf db) :
    SkillDBwf { db with
      resumeSkills := db.resumeSkills.filter fun l => l.resume_id != rid } ∧
    linksView { db with
      resumeSkills := db.resumeSkills.filter fun l => l.resume_id != rid } rid = [] := by
  obtain ⟨hnd, hsk, hlk⟩ := h
  constructor
  · exact ⟨hnd, hsk, fun l hl => hlk l (List.mem_of_mem_filter hl)⟩
  · unfold linksView
    have : (List.filter (fun l => l.resume_id == rid)
        (List.filter (fun l => l.resume_id != rid) db.resumeSkills)) = [] := by
      rw [List.filter_filter]
      apply List.filter_eq_nil_iff.2
      intro l _
      by_cases hcl : l.resume_id = rid <;> simp [hcl]
    rw [this]
    rfl

/-- C2: for every resume create or update call that supplies a skills list,
the links attached to the resume afterwards are exactly the supplied list —
each name resolved against the shared taxonomy (created if absent) and
linked with its per-resume proficiency (default intermediate) and years
(default 0).  On update all prior links are destroyed first, so the result
replaces rather than merges them; on create the fresh resume has no prior
links and the loop alone yields the same exact list. -/
theorem resume_skills_exactly_supplied (db : SkillDB) (rid : Nat)
    (s : List SkillInput) (h : SkillDBwf db) :
    linksView (replaceSkills db rid s) rid = s.map interpInput ∧
    ((∀ l ∈ db.resumeSkills, l.resume_id ≠ rid) →
      linksView (addSkills db rid s) rid = s.map interpInput) := by
  constructor
  · have hd := destroyLinks_wf db rid h
    have := addSkills_view rid s _ hd.1
    rw [replaceSkills, this.2, hd.2]
    rfl
  · intro hfresh
    have hempty : linksView db rid = [] := by
      unfold linksView
      have : (List.filter (fun l => l.resume_id == rid) db.resumeSkills) = [] := by
        apply List.filter_eq_nil_iff.2
        intro l hl
        simp [hfresh l hl]
      rw [this]
      rfl
    have := addSkills_view rid s db h
    rw [this.2, hempty]
    rfl

/-- Witness for C2: updating resume 1 — which already links the skill JS —
with a two-entry skills list (React at advanced, JS at expert with category
Languages) leaves exactly those two links, in order, with JS resolved to the
existing taxonomy row and React created fresh. -/
theorem resume_skills_exactly_supplied_witness :
    linksView
        (replaceSkills ⟨[⟨0, "JS", "General"⟩], [⟨1, 0, "beginner", 1⟩], 1⟩ 1
          [⟨"React", some "advanced", some 2, none⟩,
            ⟨"JS", some "expert", none, some "Languages"⟩]) 1 =
      [(some "React", "advanced", 2), (some "JS", "expert", 0)] := by
  have h := resume_skills_exactly_supplied
    ⟨[⟨0, "JS", "General"⟩], [⟨1, 0, "beginner", 1⟩], 1⟩ 1
    [⟨"React", some "advanced", some 2, none⟩,
      ⟨"JS", some "expert", none, some "Languages"⟩]
    (by refine ⟨by decide, by decide, by decide⟩)
  exact h.1

end JobBoard

namespace JobBoard

/-- A row of the `jobs` table as the public list endpoint reads it. -/
structure JobListing where
  id : Nat
  employer_id : Nat
  title : String
  description : String
  requirements : String
  location : Option String
  salary_min : Option Nat
  salary_max : Option Nat
  employment_type : Option String
  experience_level : Option String
  is_active : Bool
deriving DecidableEq, Repr

/-- The query string of GET /api/jobs (sort options omitted: they do not
affect which rows match or the pagination arithmetic). -/
structure JobsQuery where
  page : Nat
  limit : Nat
  location : Option String
  employment_type : Option String
  experience_level : Option String
  salary_min : Option Nat
  salary_max : Option Nat
  search : Option String
deriving DecidableEq, Repr

/-- The pagination object of the JSON envelope. -/
structure PaginationInfo where
  current_page : Nat
  total_pages : Nat
  total_items : Nat
  items_per_page : Nat
deriving DecidableEq, Repr

/-- The reply of GET /api/jobs. -/
inductive JobsReply where
  | ok (rows : List JobListing) (pagination : PaginationInfo)
  | err (status : Nat) (msg : String)
deriving DecidableEq, Repr

/-- GET /api/jobs.  The jobs router file requires only the models, the auth
middleware and validateJob; the Sequelize `Op` symbol is never imported
there, so the filter branches for location, salary_min, salary_max and
search — which evaluate `Op.iLike`, `Op.gte`, `Op.lte` and `Op.or` — throw
a ReferenceError as soon as one of those query parameters is present, and
the handler's catch turns it into the generic 500 reply.  The
employment_type and experience_level filters do not touch `Op`; for them
the source computes offset = (page - 1) * limit, slices, and reports
current_page = page, total_pages = ceil(count / limit), total_items =
count, items_per_page = limit. -/
def getJobsList (db : List JobListing) (q : JobsQuery) : JobsReply :=
  if q.location.isSome || q.salary_min.isSome || q.salary_max.isSome ||
      q.search.isSome then
    .err 500 "Failed to fetch jobs"
  else
    let matching := db.filter fun j =>
      j.is_active &&
      (match q.employment_type with
        | some t => j.employment_type == some t
        | none => true) &&
      (match q.experience_level with
        | some t => j.experience_level == some t
        | none => true)
    .ok ((matching.drop ((q.page - 1) * q.limit)).take q.limit)
      ⟨q.page, (matching.length + q.limit - 1) / q.limit, matching.length, q.limit⟩

/-- C3, failing input: the spec's own scenario
`location=Remote&employment_type=contract&page=1&limit=10` must return the
matching active jobs with their pagination fields, but because `Op` is
never imported in the jobs router the location branch throws and the
request is answered 500 — even though the database holds an active Remote
contract job that the same handler does return when only the non-Op
employment_type filter is used. -/
theorem jobsList_op_filters_return_500 :
    getJobsList
        [⟨1, 2, "Frontend Developer", "Build UIs", "JS", some "Remote",
          none, none, some "contract", some "mid", true⟩]
        ⟨1, 10, some "Remote", some "contract", none, none, none, none⟩ =
      .err 500 "Failed to fetch jobs" ∧
    getJobsList
        [⟨1, 2, "Frontend Developer", "Build UIs", "JS", some "Remote",
          none, none, some "contract", some "mid", true⟩]
        ⟨1, 10, none, some "contract", none, none, none, none⟩ =
      .ok
        [⟨1, 2, "Frontend Developer", "Build UIs", "JS", some "Remote",
          none, none, some "contract", some "mid", true⟩]
        ⟨1, 1, 1, 10⟩ := by
  constructor
  · rfl
  · rfl

end JobBoard

namespace JobBoard

/-- The body of POST /api/jobs and PUT /api/jobs/:id.  Salaries are JSON
numbers, modelled as rationals; dates as natural-number timestamps. -/
structure JobBody where
  title : Option String
  description : Option String
  requirements : Option String
  location : Option String
  salary_min : Option ℚ
  salary_max : Option ℚ
  employment_type : Option String
  experience_level : Option String
  application_deadline : Option Nat
deriving DecidableEq, Repr

/-- The employment_type enumeration of the Joi job schema. -/
def employmentTypes : List String :=
  ["full-time", "part-time", "contract", "internship"]

/-- The experience_level enumeration of the Joi job schema. -/
def experienceLevels : List String :=
  ["entry", "mid", "senior", "executive"]

/-- Title rule of the Joi job schema: required, length 5 to 200. -/
def checkJobTitle (b : JobBody) : Option Resp :=
  match b.title with
  | none => some ⟨400, "Job title is required"⟩
  | some t =>
    if t.length < 5 then
      some ⟨400, "Job title must be at least 5 characters long"⟩
    else if 200 < t.length then
      some ⟨400, "Job title cannot exceed 200 characters"⟩
    else none

/-- Description rule: required, at least 50 characters. -/
def checkJobDescription (b : JobBody) : Option Resp :=
  match b.description with
  | none => some ⟨400, "Job description is required"⟩
  | some d =>
    if d.length < 50 then
      some ⟨400, "Job description must be at least 50 characters long"⟩
    else none

/-- Location rule: optional, at most 200 characters. -/
def checkJobLocation (b : JobBody) : Option Resp :=
  match b.location with
  | some loc =>
    if 200 < loc.length then
      some ⟨400, "Location cannot exceed 200 characters"⟩
    else none
  | none => none

/-- salary_min rule: optional, strictly positive number. -/
def checkJobSalaryMin (b : JobBody) : Option Resp :=
  match b.salary_min with
  | some mn =>
    if mn ≤ 0 then some ⟨400, "Minimum salary must be a positive number"⟩
    else none
  | none => none

/-- salary_max rule: optional, strictly positive number. -/
def checkJobSalaryMax (b : JobBody) : Option Resp :=
  match b.salary_max with
  | some mx =>
    if mx ≤ 0 then some ⟨400, "Maximum salary must be a positive number"⟩
    else none
  | none => none

/-- employment_type rule: optional, member of the enumeration. -/
def checkJobEmploymentType (b : JobBody) : Option Resp :=
  match b.employment_type with
  | some t =>
    if employmentTypes.contains t then none
    else some ⟨400, "employment_type must be one of the allowed values"⟩
  | none => none

/-- experience_level rule: optional, member of the enumeration. -/
def checkJobExperienceLevel (b : JobBody) : Option Resp :=
  match b.experience_level with
  | some t =>
    if experienceLevels.contains t then none
    else some ⟨400, "experience_level must be one of the allowed values"⟩
  | none => none

/-- application_deadline rule: optional, strictly in the future. -/
def checkJobDeadline (now : Nat) (b : JobBody) : Option Resp :=
  match b.application_deadline with
  | some d =>
    if d ≤ now then some ⟨400, "Application deadline must be in the future"⟩
    else none
  | none => none

/-- The Joi schema checks of validateJob, in schema key order, reporting
the first violated rule. -/
def joiCheckJob (now : Nat) (b : JobBody) : Option Resp :=
  (checkJobTitle b).orElse fun _ =>
  (checkJobDescription b).orElse fun _ =>
  (checkJobLocation b).orElse fun _ =>
  (checkJobSalaryMin b).orElse fun _ =>
  (checkJobSalaryMax b).orElse fun _ =>
  (checkJobEmploymentType b).orElse fun _ =>
  (checkJobExperienceLevel b).orElse fun _ =>
  checkJobDeadline now b

/-- validateJob middleware: the Joi schema first, then the handler-level
salary-range comparison `salary_min > salary_max` (after Joi both present
values are positive, so JS truthiness coincides with presence). -/
def validateJob (now : Nat) (b : JobBody) : Option Resp :=
  match joiCheckJob now b with
  | some r => some r
  | none =>
    match b.salary_min, b.salary_max with
    | some mn, some mx =>
        if mx < mn then
          some ⟨400, "Minimum salary cannot be greater than maximum salary"⟩
        else none
    | _, _ => none

/-- A persisted job row for the create route: owner plus the body. -/
structure StoredJob where
  employer_id : Nat
  body : JobBody
deriving DecidableEq, Repr

/-- POST /api/jobs: validateJob runs before the handler; only when it
passes does the handler create the row. -/
def createJobRoute (now : Nat) (db : List StoredJob) (employer_id : Nat)
    (b : JobBody) : Resp × List StoredJob :=
  match validateJob now b with
  | some r => (r, db)
  | none => (⟨201, "Job created successfully"⟩, db ++ [⟨employer_id, b⟩])

/-- Each single Joi job rule only ever reports a 400. -/
theorem jobChecks_status (now : Nat) (b : JobBody) (r : Resp) :
    (checkJobTitle b = some r → r.status = 400) ∧
    (checkJobDescription b = some r → r.status = 400) ∧
    (checkJobLocation b = some r → r.status = 400) ∧
    (checkJobSalaryMin b = some r → r.status = 400) ∧
    (checkJobSalaryMax b = some r → r.status = 400) ∧
    (checkJobEmploymentType b = some r → r.status = 400) ∧
    (checkJobExperienceLevel b = some r → r.status = 400) ∧
    (checkJobDeadline now b = some r → r.status = 400) := by
  refine ⟨?_, ?_, ?_, ?_, ?_, ?_, ?_, ?_⟩ <;>
  · intro h
    first
      | unfold checkJobTitle at h
      | unfold checkJobDescription at h
      | unfold checkJobLocation at h
      | unfold checkJobSalaryMin at h
      | unfold checkJobSalaryMax at h
      | unfold checkJobEmploymentType at h
      | unfold checkJobExperienceLevel at h
      | unfold checkJobDeadline at h
    repeat' split at h
    all_goals cases h <;> rfl

/-- Every reply the Joi job schema produces is a 400. -/
theorem joiCheckJob_status (now : Nat) (b : JobBody) (r : Resp)
    (h : joiCheckJob now b = some r) : r.status = 400 := by
  have hc := jobChecks_status now b r
  unfold joiCheckJob at h
  rcases (Option.orElse_eq_some' _ _ _).1 h with h1 | ⟨_, h⟩
  · exact hc.1 h1
  rcases (Option.orElse_eq_some' _ _ _).1 h with h1 | ⟨_, h⟩
  · exact hc.2.1 h1
  rcases (Option.orElse_eq_some' _ _ _).1 h with h1 | ⟨_, h⟩
  · exact hc.2.2.1 h1
  rcases (Option.orElse_eq_some' _ _ _).1 h with h1 | ⟨_, h⟩
  · exact hc.2.2.2.1 h1
  rcases (Option.orElse_eq_some' _ _ _).1 h with h1 | ⟨_, h⟩
  · exact hc.2.2.2.2.1 h1
  rcases (Option.orElse_eq_some' _ _ _).1 h with h1 | ⟨_, h⟩
  · exact hc.2.2.2.2.2.1 h1
  rcases (Option.orElse_eq_some' _ _ _).1 h with h1 | ⟨_, h⟩
  · exact hc.2.2.2.2.2.2.1 h1
  exact hc.2.2.2.2.2.2.2 h

end JobBoard

namespace JobBoard

/-- C5: whenever a job create request carries both salary_min and
salary_max with min greater than max, validateJob rejects it with a 400
before the handler runs, so no job row is created; and when the rest of the
body passes the Joi schema, the reported error is exactly the salary-range
message.  The update route runs the same middleware before touching the
row. -/
theorem job_salary_range_rejected_before_persistence
    (now : Nat) (db : List StoredJob) (uid : Nat) (b : JobBody) (mn mx : ℚ)
    (hmn : b.salary_min = some mn) (hmx : b.salary_max = some mx)
    (hlt : mx < mn) :
    (createJobRoute now db uid b).1.status = 400 ∧
    (createJobRoute now db uid b).2 = db ∧
    (joiCheckJob now b = none →
      (createJobRoute now db uid b).1 =
        ⟨400, "Minimum salary cannot be greater than maximum salary"⟩) := by
  cases hj : joiCheckJob now b with
  | some r =>
    have hv : validateJob now b = some r := by
      unfold validateJob
      rw [hj]
    have hroute : createJobRoute now db uid b = (r, db) := by
      unfold createJobRoute
      rw [hv]
    rw [hroute]
    refine ⟨joiCheckJob_status now b r hj, rfl, fun hcl => ?_⟩
    exact Option.noConfusion hcl
  | none =>
    have hv : validateJob now b =
        some ⟨400, "Minimum salary cannot be greater than maximum salary"⟩ := by
      unfold validateJob
      rw [hj, hmn, hmx]
      simp [hlt]
    have hroute : createJobRoute now db uid b =
        (⟨400, "Minimum salary cannot be greater than maximum salary"⟩, db) := by
      unfold createJobRoute
      rw [hv]
    rw [hroute]
    exact ⟨rfl, rfl, fun _ => rfl⟩

/-- Witness for C5, the spec's own scenario: salary_min 50000 and
salary_max 40000 on an otherwise valid body are rejected with the
salary-range message and nothing is persisted. -/
theorem job_salary_range_rejected_before_persistence_witness :
    (createJobRoute 0 [] 2
        ⟨some "Backend Engineer",
          some "Design and build the service layer of our platform and APIs",
          some "Node", some "Remote", some 50000, some 40000,
          some "full-time", some "mid", none⟩).1 =
      ⟨400, "Minimum salary cannot be greater than maximum salary"⟩ ∧
    (createJobRoute 0 [] 2
        ⟨some "Backend Engineer",
          some "Design and build the service layer of our platform and APIs",
          some "Node", some "Remote", some 50000, some 40000,
          some "full-time", some "mid", none⟩).2 = [] := by
  have h := job_salary_range_rejected_before_persistence 0 [] 2
    ⟨some "Backend Engineer",
      some "Design and build the service layer of our platform and APIs",
      some "Node", some "Remote", some 50000, some 40000,
      some "full-time", some "mid", none⟩
    50000 40000 rfl rfl (by norm_num)
  exact ⟨h.2.2 (by decide), h.2.1⟩

end JobBoard

namespace JobBoard

/-- The body of POST /api/auth/register as validateRegistration sees it. -/
structure RegistrationBody where
  email : Option String
  password : Option String
  first_name : Option String
  last_name : Option String
  phone : Option String
  role : Option String
deriving DecidableEq, Repr

/-- Joi's internal email grammar, abstracted to the presence of an @ sign;
the registration claims do not depend on its exact shape. -/
def joiEmailFormatOk (s : String) : Bool :=
  s.contains (Char.ofNat 64)

/-- Joi's phone pattern, abstracted to its length window; the registration
claims do not depend on its exact shape. -/
def joiPhonePatternOk (s : String) : Bool :=
  8 ≤ s.length && s.length ≤ 16

/-- validateRegistration middleware: the Joi schema in key order — email
(required, email format), password (required, min 6), first_name and
last_name (required, 2 to 50), phone (optional, pattern), role (optional,
one of applicant or employer) — reporting the first violated rule with a
400; the handler only runs when every rule passes. -/
def validateRegistration (b : RegistrationBody) : Option Resp :=
  match b.email with
  | none => some ⟨400, "Email is required"⟩
  | some e =>
    if !(joiEmailFormatOk e) then
      some ⟨400, "Please provide a valid email address"⟩
    else
      match b.password with
      | none => some ⟨400, "Password is required"⟩
      | some p =>
        if p.length < 6 then
          some ⟨400, "Password must be at least 6 characters long"⟩
        else
          match b.first_name with
          | none => some ⟨400, "First name is required"⟩
          | some fn =>
            if fn.length < 2 then
              some ⟨400, "First name must be at least 2 characters long"⟩
            else if 50 < fn.length then
              some ⟨400, "First name cannot exceed 50 characters"⟩
            else
              match b.last_name with
              | none => some ⟨400, "Last name is required"⟩
              | some ln =>
                if ln.length < 2 then
                  some ⟨400, "Last name must be at least 2 characters long"⟩
                else if 50 < ln.length then
                  some ⟨400, "Last name cannot exceed 50 characters"⟩
                else
                  match b.phone with
                  | some ph =>
                    if !(joiPhonePatternOk ph) then
                      some ⟨400, "Please provide a valid phone number"⟩
                    else
                      match b.role with
                      | some r =>
                        if r == "applicant" || r == "employer" then none
                        else some ⟨400, "role must be one of applicant or employer"⟩
                      | none => none
                  | none =>
                    match b.role with
                    | some r =>
                      if r == "applicant" || r == "employer" then none
                      else some ⟨400, "role must be one of applicant or employer"⟩
                    | none => none

/-- C9: the public registration validator lets a request through to the
handler only when the role field is absent or equal to applicant or
employer, and every request carrying any other role value — admin in
particular — is answered with a 400 validation error before the handler
can create an account. -/
theorem registration_role_restricted (b : RegistrationBody) :
    (validateRegistration b = none →
      b.role = none ∨ b.role = some "applicant" ∨ b.role = some "employer") ∧
    ((b.role ≠ none ∧ b.role ≠ some "applicant" ∧ b.role ≠ some "employer") →
      ∃ r, validateRegistration b = some r ∧ r.status = 400) := by
  constructor
  · intro h
    unfold validateRegistration at h
    repeat' split at h
    all_goals
      first
        | exact Option.noConfusion h
        | simp_all
  · rintro ⟨h0, h1, h2⟩
    rcases hr : b.role with _ | r
    · exact absurd hr h0
    have hrb : (r == "applicant" || r == "employer") = false := by
      rw [hr] at h1 h2
      simp only [Bool.or_eq_false_iff, beq_eq_false_iff_ne]
      exact ⟨fun hcl => h1 (by rw [hcl]), fun hcl => h2 (by rw [hcl])⟩
    unfold validateRegistration
    repeat' split
    all_goals first
      | exact ⟨_, rfl, rfl⟩
      | simp_all

end JobBoard

namespace JobBoard

/-- Witness for C9: an otherwise valid registration body carrying role
admin is rejected by the validator with a 400. -/
theorem registration_role_restricted_witness :
    ∃ r, validateRegistration
        ⟨some "jane@example.com", some "secret1", some "Jane", some "Doe",
          none, some "admin"⟩ = some r ∧ r.status = 400 :=
  (registration_role_restricted
    ⟨some "jane@example.com", some "secret1", some "Jane", some "Doe",
      none, some "admin"⟩).2 (by refine ⟨?_, ?_, ?_⟩ <;> decide)

end JobBoard

namespace JobBoard

namespace Cascade

/-- A resume row restricted to its key and owner (models/Resume.js:
user_id references users and is not nullable). -/
structure RRow where
  id : Nat
  user_id : Nat
deriving DecidableEq, Repr

/-- Modelled from the spec: models/Job.js is not in the sources; per the
data model a Job belongs to exactly one employer User. -/
structure JRow where
  id : Nat
  employer_id : Nat
deriving DecidableEq, Repr

/-- Modelled from the spec: models/ResumeSkill.js is not in the sources;
per the data model a skill link joins one Resume and one Skill. -/
structure LinkRow where
  resume_id : Nat
  skill_id : Nat
deriving DecidableEq, Repr

/-- Modelled from the spec: models/WorkExperience.js and models/Education.js
are not in the sources; per the data model both belong to one Resume. -/
structure ChildRow where
  id : Nat
  resume_id : Nat
deriving DecidableEq, Repr

/-- Modelled from the spec: models/Application.js is not in the sources;
per the data model an Application references one Job, one applicant User
and one Resume. -/
structure ARow where
  id : Nat
  job_id : Nat
  applicant_id : Nat
  resume_id : Nat
deriving DecidableEq, Repr

/-- Modelled from the spec: models/AIAnalysis.js is not in the sources; per
the data model an AIAnalysis references a Resume and optionally a Job. -/
structure AnalysisRow where
  id : Nat
  resume_id : Nat
  job_id : Option Nat
deriving DecidableEq, Repr

/-- The whole relational store, one list per table, with the foreign keys
of the association list in models/index.js. -/
structure DB where
  users : List Nat
  skills : List Nat
  resumes : List RRow
  jobs : List JRow
  resumeSkills : List LinkRow
  workExperiences : List ChildRow
  educations : List ChildRow
  applications : List ARow
  aiAnalyses : List AnalysisRow
deriving DecidableEq, Repr

/-- Modelled from the spec: the per-model files carrying the foreign-key
delete behaviour are not in the sources; §3/§6 of the spec fix cascading
deletes along every listed foreign key, enforced referentially.  Deleting a
resume therefore removes the resume together with its skill links,
work-experience entries, education entries, applications and analyses. -/
def deleteResumeCascade (db : DB) (rid : Nat) : DB :=
  { db with
      resumes := db.resumes.filter fun r => r.id != rid,
      resumeSkills := db.resumeSkills.filter fun l => l.resume_id != rid,
      workExperiences := db.workExperiences.filter fun w => w.resume_id != rid,
      educations := db.educations.filter fun e => e.resume_id != rid,
      applications := db.applications.filter fun a => a.resume_id != rid,
      aiAnalyses := db.aiAnalyses.filter fun an => an.resume_id != rid }

/-- Modelled from the spec, as for deleteResumeCascade: deleting a job
removes the job and its applications; the optional job reference of an
analysis is cleared (the nullable foreign key is set to null rather than
deleting the resume-scoped analysis). -/
def deleteJobCascade (db : DB) (jid : Nat) : DB :=
  { db with
      jobs := db.jobs.filter fun j => j.id != jid,
      applications := db.applications.filter fun a => a.job_id != jid,
      aiAnalyses := db.aiAnalyses.map fun an =>
        if an.job_id == some jid then { an with job_id := none } else an }

/-- The ids of the resumes owned by a user, doomed when the user is
deleted. -/
def deadResumeIds (db : DB) (uid : Nat) : List Nat :=
  (db.resumes.filter fun r => r.user_id == uid).map fun r => r.id

/-- The ids of the jobs owned by a user, doomed when the user is deleted. -/
def deadJobIds (db : DB) (uid : Nat) : List Nat :=
  (db.jobs.filter fun j => j.employer_id == uid).map fun j => j.id

/-- Modelled from the spec, as for deleteResumeCascade: deleting a user
removes the user, their resumes and jobs, and transitively every skill
link, work experience, education entry, application and analysis hanging
off those rows, as well as the user's own applications as an applicant;
the nullable job reference of a surviving analysis is cleared when it
points at a doomed job. -/
def deleteUserCascade (db : DB) (uid : Nat) : DB :=
  { db with
      users := db.users.filter fun u => u != uid,
      resumes := db.resumes.filter fun r => r.user_id != uid,
      jobs := db.jobs.filter fun j => j.employer_id != uid,
      resumeSkills := db.resumeSkills.filter fun l =>
        !((deadResumeIds db uid).contains l.resume_id),
      workExperiences := db.workExperiences.filter fun w =>
        !((deadResumeIds db uid).contains w.resume_id),
      educations := db.educations.filter fun e =>
        !((deadResumeIds db uid).contains e.resume_id),
      applications := db.applications.filter fun a =>
        !(a.applicant_id == uid || (deadJobIds db uid).contains a.job_id ||
          (deadResumeIds db uid).contains a.resume_id),
      aiAnalyses := (db.aiAnalyses.filter fun an =>
        !((deadResumeIds db uid).contains an.resume_id)).map fun an =>
          match an.job_id with
          | some j =>
            if (deadJobIds db uid).contains j then { an with job_id := none }
            else an
          | none => an }

/-- Referential integrity: every stored foreign key points at an existing
row of the referenced table. -/
def refIntegrity (db : DB) : Prop :=
  (∀ r ∈ db.resumes, r.user_id ∈ db.users) ∧
  (∀ j ∈ db.jobs, j.employer_id ∈ db.users) ∧
  (∀ l ∈ db.resumeSkills,
    (∃ r ∈ db.resumes, r.id = l.resume_id) ∧ l.skill_id ∈ db.skills) ∧
  (∀ w ∈ db.workExperiences, ∃ r ∈ db.resumes, r.id = w.resume_id) ∧
  (∀ e ∈ db.educations, ∃ r ∈ db.resumes, r.id = e.resume_id) ∧
  (∀ a ∈ db.applications,
    (∃ j ∈ db.jobs, j.id = a.job_id) ∧ a.applicant_id ∈ db.users ∧
      ∃ r ∈ db.resumes, r.id = a.resume_id) ∧
  (∀ an ∈ db.aiAnalyses,
    (∃ r ∈ db.resumes, r.id = an.resume_id) ∧
      ∀ j, an.job_id = some j → ∃ jb ∈ db.jobs, jb.id = j)

end Cascade

end JobBoard

namespace JobBoard

namespace Cascade

/-- Deleting a resume preserves referential integrity. -/
theorem refIntegrity_deleteResume (db : DB) (rid : Nat)
    (h : refIntegrity db) : refIntegrity (deleteResumeCascade db rid) := by
  obtain ⟨h1, h2, h3, h4, h5, h6, h7⟩ := h
  refine ⟨?_, ?_, ?_, ?_, ?_, ?_, ?_⟩
  · intro r hr
    exact h1 r (List.mem_of_mem_filter hr)
  · intro j hj
    exact h2 j hj
  · intro l hl
    have hm := List.mem_filter.1 hl
    have hne : l.resume_id ≠ rid := by simpa using hm.2
    obtain ⟨⟨r, hr, hrid⟩, hsk⟩ := h3 l hm.1
    refine ⟨⟨r, List.mem_filter.2 ⟨hr, ?_⟩, hrid⟩, hsk⟩
    simpa using hrid.symm ▸ hne
  · intro w hw
    have hm := List.mem_filter.1 hw
    have hne : w.resume_id ≠ rid := by simpa using hm.2
    obtain ⟨r, hr, hrid⟩ := h4 w hm.1
    refine ⟨r, List.mem_filter.2 ⟨hr, ?_⟩, hrid⟩
    simpa using hrid.symm ▸ hne
  · intro e he
    have hm := List.mem_filter.1 he
    have hne : e.resume_id ≠ rid := by simpa using hm.2
    obtain ⟨r, hr, hrid⟩ := h5 e hm.1
    refine ⟨r, List.mem_filter.2 ⟨hr, ?_⟩, hrid⟩
    simpa using hrid.symm ▸ hne
  · intro a ha
    have hm := List.mem_filter.1 ha
    have hne : a.resume_id ≠ rid := by simpa using hm.2
    obtain ⟨hjob, huser, r, hr, hrid⟩ := h6 a hm.1
    refine ⟨hjob, huser, r, List.mem_filter.2 ⟨hr, ?_⟩, hrid⟩
    simpa using hrid.symm ▸ hne
  · intro an han
    have hm := List.mem_filter.1 han
    have hne : an.resume_id ≠ rid := by simpa using hm.2
    obtain ⟨⟨r, hr, hrid⟩, hjob⟩ := h7 an hm.1
    refine ⟨⟨r, List.mem_filter.2 ⟨hr, ?_⟩, hrid⟩, hjob⟩
    simpa using hrid.symm ▸ hne

/-- Deleting a job preserves referential integrity. -/
theorem refIntegrity_deleteJob (db : DB) (jid : Nat)
    (h : refIntegrity db) : refIntegrity (deleteJobCascade db jid) := by
  obtain ⟨h1, h2, h3, h4, h5, h6, h7⟩ := h
  refine ⟨?_, ?_, ?_, ?_, ?_, ?_, ?_⟩
  · intro r hr
    exact h1 r hr
  · intro j hj
    exact h2 j (List.mem_of_mem_filter hj)
  · intro l hl
    exact h3 l hl
  · intro w hw
    exact h4 w hw
  · intro e he
    exact h5 e he
  · intro a ha
    have hm := List.mem_filter.1 ha
    have hne : a.job_id ≠ jid := by simpa using hm.2
    obtain ⟨⟨j, hj, hjid⟩, huser, hres⟩ := h6 a hm.1
    refine ⟨⟨j, List.mem_filter.2 ⟨hj, ?_⟩, hjid⟩, huser, hres⟩
    simpa using hjid.symm ▸ hne
  · intro an han
    obtain ⟨an0, han0, hfan⟩ := List.mem_map.1 han
    obtain ⟨hres, hjob⟩ := h7 an0 han0
    by_cases hc : an0.job_id = some jid
    · have : an = { an0 with job_id := none } := by
        rw [← hfan]
        simp [hc]
      rw [this]
      exact ⟨hres, fun j hj => Option.noConfusion hj⟩
    · have : an = an0 := by
        rw [← hfan]
        have : (an0.job_id == some jid) = false := by
          simpa using hc
        simp [this]
      rw [this]
      refine ⟨hres, fun j hj => ?_⟩
      obtain ⟨jb, hjb, hjbid⟩ := hjob j hj
      refine ⟨jb, List.mem_filter.2 ⟨hjb, ?_⟩, hjbid⟩
      have hne : j ≠ jid := fun hcl => hc (hcl ▸ hj)
      simpa using hjbid.symm ▸ hne

end Cascade

end JobBoard

namespace JobBoard

namespace Cascade

/-- Membership in the doomed-resume id set. -/
theorem mem_deadResumeIds (db : DB) (uid x : Nat) :
    x ∈ deadResumeIds db uid ↔
      ∃ r ∈ db.resumes, r.user_id = uid ∧ r.id = x := by
  unfold deadResumeIds
  simp only [List.mem_map, List.mem_filter, beq_iff_eq]
  constructor
  · rintro ⟨r, ⟨hr, hu⟩, hx⟩
    exact ⟨r, hr, hu, hx⟩
  · rintro ⟨r, hr, hu, hx⟩
    exact ⟨r, ⟨hr, hu⟩, hx⟩

/-- Membership in the doomed-job id set. -/
theorem mem_deadJobIds (db : DB) (uid x : Nat) :
    x ∈ deadJobIds db uid ↔
      ∃ j ∈ db.jobs, j.employer_id = uid ∧ j.id = x := by
  unfold deadJobIds
  simp only [List.mem_map, List.mem_filter, beq_iff_eq]
  constructor
  · rintro ⟨j, ⟨hj, hu⟩, hx⟩
    exact ⟨j, hj, hu, hx⟩
  · rintro ⟨j, hj, hu, hx⟩
    exact ⟨j, ⟨hj, hu⟩, hx⟩

/-- A referenced resume that is not doomed survives the user delete. -/
theorem resume_witness_survives (db : DB) (uid x : Nat)
    (hdead : x ∉ deadResumeIds db uid)
    (hex : ∃ r ∈ db.resumes, r.id = x) :
    ∃ r ∈ db.resumes.filter fun r => r.user_id != uid, r.id = x := by
  obtain ⟨r, hr, hrid⟩ := hex
  have hu : r.user_id ≠ uid := fun hcl =>
    hdead ((mem_deadResumeIds db uid x).2 ⟨r, hr, hcl, hrid⟩)
  exact ⟨r, List.mem_filter.2 ⟨hr, by simpa using hu⟩, hrid⟩

/-- A referenced job that is not doomed survives the user delete. -/
theorem job_witness_survives (db : DB) (uid x : Nat)
    (hdead : x ∉ deadJobIds db uid)
    (hex : ∃ j ∈ db.jobs, j.id = x) :
    ∃ j ∈ db.jobs.filter fun j => j.employer_id != uid, j.id = x := by
  obtain ⟨j, hj, hjid⟩ := hex
  have hu : j.employer_id ≠ uid := fun hcl =>
    hdead ((mem_deadJobIds db uid x).2 ⟨j, hj, hcl, hjid⟩)
  exact ⟨j, List.mem_filter.2 ⟨hj, by simpa using hu⟩, hjid⟩

/-- Deleting a user preserves referential integrity. -/
theorem refIntegrity_deleteUser (db : DB) (uid : Nat)
    (h : refIntegrity db) : refIntegrity (deleteUserCascade db uid) := by
  obtain ⟨h1, h2, h3, h4, h5, h6, h7⟩ := h
  refine ⟨?_, ?_, ?_, ?_, ?_, ?_, ?_⟩
  · intro r hr
    have hm := List.mem_filter.1 hr
    have hu : r.user_id ≠ uid := by simpa using hm.2
    exact List.mem_filter.2 ⟨h1 r hm.1, by simpa using hu⟩
  · intro j hj
    have hm := List.mem_filter.1 hj
    have hu : j.employer_id ≠ uid := by simpa using hm.2
    exact List.mem_filter.2 ⟨h2 j hm.1, by simpa using hu⟩
  · intro l hl
    have hm := List.mem_filter.1 hl
    have hdead : l.resume_id ∉ deadResumeIds db uid := by simpa using hm.2
    obtain ⟨hres, hsk⟩ := h3 l hm.1
    exact ⟨resume_witness_survives db uid _ hdead hres, hsk⟩
  · intro w hw
    have hm := List.mem_filter.1 hw
    have hdead : w.resume_id ∉ deadResumeIds db uid := by simpa using hm.2
    exact resume_witness_survives db uid _ hdead (h4 w hm.1)
  · intro e he
    have hm := List.mem_filter.1 he
    have hdead : e.resume_id ∉ deadResumeIds db uid := by simpa using hm.2
    exact resume_witness_survives db uid _ hdead (h5 e hm.1)
  · intro a ha
    have hm := List.mem_filter.1 ha
    have hc := hm.2
    simp only [Bool.or_eq_true, Bool.not_eq_true', Bool.or_eq_false_iff,
      beq_eq_false_iff_ne] at hc
    obtain ⟨⟨happ, hjdead⟩, hrdead⟩ := hc
    have hjdead' : a.job_id ∉ deadJobIds db uid := by simpa using hjdead
    have hrdead' : a.resume_id ∉ deadResumeIds db uid := by simpa using hrdead
    obtain ⟨hjob, huser, hres⟩ := h6 a hm.1
    refine ⟨job_witness_survives db uid _ hjdead' hjob,
      List.mem_filter.2 ⟨huser, by simpa using happ⟩,
      resume_witness_survives db uid _ hrdead' hres⟩
  · intro an han
    obtain ⟨an0, han0, hfan⟩ := List.mem_map.1 han
    have hm := List.mem_filter.1 han0
    have hrdead : an0.resume_id ∉ deadResumeIds db uid := by simpa using hm.2
    obtain ⟨hres, hjob⟩ := h7 an0 hm.1
    cases hj0 : an0.job_id with
    | none =>
      have han' : an = an0 := by
        rw [← hfan, hj0]
      rw [han']
      refine ⟨resume_witness_survives db uid _ hrdead hres, fun j hj => ?_⟩
      rw [hj0] at hj
      exact Option.noConfusion hj
    | some j0 =>
      by_cases hc : j0 ∈ deadJobIds db uid
      · have han' : an = { an0 with job_id := none } := by
          rw [← hfan, hj0]
          simp [hc]
        rw [han']
        exact ⟨resume_witness_survives db uid _ hrdead hres,
          fun j hj => Option.noConfusion hj⟩
      · have han' : an = an0 := by
          rw [← hfan, hj0]
          simp [hc]
        rw [han']
        refine ⟨resume_witness_survives db uid _ hrdead hres, fun j hj => ?_⟩
        rw [hj0] at hj
        rcases Option.some.inj hj with rfl
        exact job_witness_survives db uid j0 hc (hjob j0 hj0)

end Cascade

end JobBoard

namespace JobBoard

namespace Cascade

/-- A small populated store used to witness the cascade theorem: applicant
1 with resume 10 (one skill link, one work experience, one education
entry), employer 2 with job 20, an application of 1 to job 20 with resume
10, and an analysis of resume 10 against job 20. -/
def cascadeDemoDB : DB :=
  ⟨[1, 2], [5], [⟨10, 1⟩], [⟨20, 2⟩], [⟨10, 5⟩], [⟨1, 10⟩], [⟨1, 10⟩],
    [⟨1, 20, 1, 10⟩], [⟨1, 10, some 20⟩]⟩

end Cascade

/-- C7: on a referentially intact store, every delete cascades and keeps
the store intact — deleting a user removes the user, all their resumes and
all their jobs (with everything hanging off them); deleting a resume
removes its skill links, work-experience entries, education entries,
applications and analyses; deleting a job removes its applications and
clears the analyses' optional job reference — and in each case referential
integrity holds afterwards, so no surviving record references the deleted
parent. -/
theorem deletes_cascade_preserving_integrity (db : Cascade.DB)
    (uid rid jid : Nat) (h : Cascade.refIntegrity db) :
    Cascade.refIntegrity (Cascade.deleteUserCascade db uid) ∧
    uid ∉ (Cascade.deleteUserCascade db uid).users ∧
    (∀ r ∈ (Cascade.deleteUserCascade db uid).resumes, r.user_id ≠ uid) ∧
    (∀ j ∈ (Cascade.deleteUserCascade db uid).jobs, j.employer_id ≠ uid) ∧
    Cascade.refIntegrity (Cascade.deleteResumeCascade db rid) ∧
    (∀ r ∈ (Cascade.deleteResumeCascade db rid).resumes, r.id ≠ rid) ∧
    (∀ l ∈ (Cascade.deleteResumeCascade db rid).resumeSkills,
      l.resume_id ≠ rid) ∧
    (∀ w ∈ (Cascade.deleteResumeCascade db rid).workExperiences,
      w.resume_id ≠ rid) ∧
    (∀ e ∈ (Cascade.deleteResumeCascade db rid).educations,
      e.resume_id ≠ rid) ∧
    (∀ a ∈ (Cascade.deleteResumeCascade db rid).applications,
      a.resume_id ≠ rid) ∧
    (∀ an ∈ (Cascade.deleteResumeCascade db rid).aiAnalyses,
      an.resume_id ≠ rid) ∧
    Cascade.refIntegrity (Cascade.deleteJobCascade db jid) ∧
    (∀ j ∈ (Cascade.deleteJobCascade db jid).jobs, j.id ≠ jid) ∧
    (∀ a ∈ (Cascade.deleteJobCascade db jid).applications, a.job_id ≠ jid) ∧
    (∀ an ∈ (Cascade.deleteJobCascade db jid).aiAnalyses,
      an.job_id ≠ some jid) := by
  refine ⟨Cascade.refIntegrity_deleteUser db uid h, ?_, ?_, ?_,
    Cascade.refIntegrity_deleteResume db rid h, ?_, ?_, ?_, ?_, ?_, ?_,
    Cascade.refIntegrity_deleteJob db jid h, ?_, ?_, ?_⟩
  · intro hmem
    have := (List.mem_filter.1 hmem).2
    simp at this
  · intro r hr
    have := (List.mem_filter.1 hr).2
    simpa using this
  · intro j hj
    have := (List.mem_filter.1 hj).2
    simpa using this
  · intro r hr
    have := (List.mem_filter.1 hr).2
    simpa using this
  · intro l hl
    have := (List.mem_filter.1 hl).2
    simpa using this
  · intro w hw
    have := (List.mem_filter.1 hw).2
    simpa using this
  · intro e he
    have := (List.mem_filter.1 he).2
    simpa using this
  · intro a ha
    have := (List.mem_filter.1 ha).2
    simpa using this
  · intro an han
    have := (List.mem_filter.1 han).2
    simpa using this
  · intro j hj
    have := (List.mem_filter.1 hj).2
    simpa using this
  · intro a ha
    have := (List.mem_filter.1 ha).2
    simpa using this
  · intro an han
    obtain ⟨an0, _, hfan⟩ := List.mem_map.1 han
    by_cases hc : an0.job_id = some jid
    · have : an = { an0 with job_id := none } := by
        rw [← hfan]
        simp [hc]
      rw [this]
      exact Option.noConfusion
    · have : an = an0 := by
        rw [← hfan]
        have hb : (an0.job_id == some jid) = false := by simpa using hc
        simp [hb]
      rw [this]
      exact hc

/-- Witness for C7 on the populated demo store: integrity survives the
delete of user 1, of resume 10 and of job 20. -/
theorem deletes_cascade_preserving_integrity_witness :
    Cascade.refIntegrity (Cascade.deleteUserCascade Cascade.cascadeDemoDB 1) ∧
    Cascade.refIntegrity
      (Cascade.deleteResumeCascade Cascade.cascadeDemoDB 10) ∧
    Cascade.refIntegrity (Cascade.deleteJobCascade Cascade.cascadeDemoDB 20) := by
  have h := deletes_cascade_preserving_integrity Cascade.cascadeDemoDB 1 10 20
    (by unfold Cascade.refIntegrity; decide)
  exact ⟨h.1, h.2.2.2.2.1, h.2.2.2.2.2.2.2.2.2.2.2.1⟩

end JobBoard

namespace JobBoard

/-- A persisted AIAnalysis row. -/
structure PersistRow where
  resume_id : Nat
  job_id : Option Nat
  analysis_type : String
  score : Int
deriving DecidableEq, Repr

/-- What one AI route does overall: the HTTP status and error message, the
AIAnalysis rows persisted, and how many times the external completion
service was called. -/
structure AiOutcome where
  status : Nat
  message : String
  persisted : List PersistRow
  externalCalls : Nat
deriving DecidableEq, Repr

/-- The JSON shape analyze-resume requests from the model. -/
structure ResumeScorePayload where
  score : Int
deriving DecidableEq, Repr

/-- One entry of the JSON array match-jobs requests from the model. -/
structure MatchEntry where
  job_index : Nat
  match_score : Int
deriving DecidableEq, Repr

/-- The JSON shape skill-gap-analysis requests from the model. -/
structure SkillGapPayload where
  overall_readiness : Int
deriving DecidableEq, Repr

/-- The JSON shape improve-resume requests from the model. -/
structure ImprovePayload where
  title_suggestions : List String
deriving DecidableEq, Repr

/-- POST /api/ai/analyze-resume.  The resume lookup (scoped to the caller)
runs first: a miss is a 404 before any external call.  Then one call to the
completion service is made; a failed call or a reply `JSON.parse` rejects
is caught as the generic 500, with nothing persisted.  On success one
resume_score row is persisted.  `call` is the outcome of the external
request and `parse` is `JSON.parse` on its reply. -/
def analyzeResume (resume : Option Nat) (call : Except Unit String)
    (parse : String → Option ResumeScorePayload) : AiOutcome :=
  match resume with
  | none => ⟨404, "Resume not found", [], 0⟩
  | some rid =>
    match call with
    | .error _ => ⟨500, "Failed to analyze resume", [], 1⟩
    | .ok reply =>
      match parse reply with
      | none => ⟨500, "Failed to analyze resume", [], 1⟩
      | some p => ⟨200, "", [⟨rid, none, "resume_score", p.score⟩], 1⟩

/-- POST /api/ai/match-jobs, same failure structure; on success the
returned 1-based indices are mapped back onto the loaded job list (an
out-of-range index makes `jobs[i]` undefined, so reading `.id` throws and
the catch yields the generic 500 before anything is persisted) and the top
5 matches are persisted as job_match rows. -/
def matchJobs (resume : Option Nat) (jobs : List Nat)
    (call : Except Unit String)
    (parse : String → Option (List MatchEntry)) : AiOutcome :=
  match resume with
  | none => ⟨404, "Resume not found", [], 0⟩
  | some rid =>
    match call with
    | .error _ => ⟨500, "Failed to match jobs", [], 1⟩
    | .ok reply =>
      match parse reply with
      | none => ⟨500, "Failed to match jobs", [], 1⟩
      | some entries =>
        if entries.any fun m => m.job_index = 0 || jobs.length < m.job_index then
          ⟨500, "Failed to match jobs", [], 1⟩
        else
          ⟨200, "",
            (entries.take 5).map fun m =>
              ⟨rid, some (jobs.getD (m.job_index - 1) 0), "job_match",
                m.match_score⟩, 1⟩

/-- POST /api/ai/skill-gap-analysis, same failure structure; on success one
skill_gap row is persisted. -/
def skillGapAnalysis (resume : Option Nat) (call : Except Unit String)
    (parse : String → Option SkillGapPayload) : AiOutcome :=
  match resume with
  | none => ⟨404, "Resume not found", [], 0⟩
  | some rid =>
    match call with
    | .error _ => ⟨500, "Failed to analyze skill gaps", [], 1⟩
    | .ok reply =>
      match parse reply with
      | none => ⟨500, "Failed to analyze skill gaps", [], 1⟩
      | some p => ⟨200, "", [⟨rid, none, "skill_gap", p.overall_readiness⟩], 1⟩

/-- POST /api/ai/improve-resume, same failure structure; nothing is ever
persisted by this route. -/
def improveResume (resume : Option Nat) (call : Except Unit String)
    (parse : String → Option ImprovePayload) : AiOutcome :=
  match resume with
  | none => ⟨404, "Resume not found", [], 0⟩
  | some _ =>
    match call with
    | .error _ => ⟨500, "Failed to generate improvement suggestions", [], 1⟩
    | .ok reply =>
      match parse reply with
      | none => ⟨500, "Failed to generate improvement suggestions", [], 1⟩
      | some _ => ⟨200, "", [], 1⟩

/-- C8 counterexample: the claim says a missing resume surfaces to the
caller as a generic service error like the external-call and parse
failures; on the code analyze-resume answers a missing resume with a
specific 404 "Resume not found", not the generic 500 reply. -/
theorem ai_missing_resume_is_404_not_generic :
    analyzeResume none (Except.ok "x") (fun _ => none) =
      ⟨404, "Resume not found", [], 0⟩ ∧
    (analyzeResume none (Except.ok "x") (fun _ => none)).status ≠ 500 ∧
    (analyzeResume none (Except.ok "x") (fun _ => none)).message ≠
      "Failed to analyze resume" := by
  refine ⟨rfl, by decide, by decide⟩

/-- C8 as amended: on each of the four AI routes, a missing resume is a
404 with no external call and nothing persisted; an external-call failure
and a non-JSON reply are each the route's generic 500 error after exactly
one external call — so never a retry — and with nothing persisted; no
partial result is returned or stored in any failure case. -/
theorem ai_failures_generic_no_retry_no_partial
    (rid : Nat) (jobs : List Nat) (reply : String)
    (call : Except Unit String)
    (p1 : String → Option ResumeScorePayload)
    (p2 : String → Option (List MatchEntry))
    (p3 : String → Option SkillGapPayload)
    (p4 : String → Option ImprovePayload) :
    analyzeResume none call p1 = ⟨404, "Resume not found", [], 0⟩ ∧
    matchJobs none jobs call p2 = ⟨404, "Resume not found", [], 0⟩ ∧
    skillGapAnalysis none call p3 = ⟨404, "Resume not found", [], 0⟩ ∧
    improveResume none call p4 = ⟨404, "Resume not found", [], 0⟩ ∧
    analyzeResume (some rid) (Except.error ()) p1 =
      ⟨500, "Failed to analyze resume", [], 1⟩ ∧
    matchJobs (some rid) jobs (Except.error ()) p2 =
      ⟨500, "Failed to match jobs", [], 1⟩ ∧
    skillGapAnalysis (some rid) (Except.error ()) p3 =
      ⟨500, "Failed to analyze skill gaps", [], 1⟩ ∧
    improveResume (some rid) (Except.error ()) p4 =
      ⟨500, "Failed to generate improvement suggestions", [], 1⟩ ∧
    (p1 reply = none → analyzeResume (some rid) (Except.ok reply) p1 =
      ⟨500, "Failed to analyze resume", [], 1⟩) ∧
    (p2 reply = none → matchJobs (some rid) jobs (Except.ok reply) p2 =
      ⟨500, "Failed to match jobs", [], 1⟩) ∧
    (p3 reply = none → skillGapAnalysis (some rid) (Except.ok reply) p3 =
      ⟨500, "Failed to analyze skill gaps", [], 1⟩) ∧
    (p4 reply = none → improveResume (some rid) (Except.ok reply) p4 =
      ⟨500, "Failed to generate improvement suggestions", [], 1⟩) := by
  refine ⟨rfl, rfl, rfl, rfl, rfl, rfl, rfl, rfl, ?_, ?_, ?_, ?_⟩ <;>
  · intro h
    simp only [analyzeResume, matchJobs, skillGapAnalysis, improveResume, h]

/-- Witness for C8's amended theorem: with resume 1 present and the model
replying something unparseable, analyze-resume and match-jobs each answer
the generic 500 after one call with nothing persisted. -/
theorem ai_failures_generic_no_retry_no_partial_witness :
    analyzeResume (some 1) (Except.ok "not json") (fun _ => none) =
      ⟨500, "Failed to analyze resume", [], 1⟩ ∧
    matchJobs (some 1) [7, 8] (Except.ok "not json") (fun _ => none) =
      ⟨500, "Failed to match jobs", [], 1⟩ := by
  have h := ai_failures_generic_no_retry_no_partial 1 [7, 8] "not json"
    (Except.ok "not json") (fun _ => none) (fun _ => none) (fun _ => none)
    (fun _ => none)
  exact ⟨h.2.2.2.2.2.2.2.2.1 rfl, h.2.2.2.2.2.2.2.2.2.1 rfl⟩

end JobBoard
